import Mathlib

/-!
Verification development for the mcp-fetch-node resilient fetch pipeline.

The definitions below are shallow embeddings of the TypeScript sources:
  * `src/utils/errors.ts`            — error taxonomy and `classifyError`
  * `src/services/circuit-breaker.ts`— per-origin circuit breaker
  * `src/utils/retry.ts`             — `calculateDelay` / `retryWithBackoff`
  * `src/utils/fetch-stream.ts`      — `streamFetch` request wrapping
  * `src/services/request-manager.ts`— scheduler (`PQueue.add`)
  * `src/utils/markdown-stream.ts`   — streaming HTML to markdown formatter

JavaScript numbers are modelled as `Nat` (counters, timestamps, character
indices) or `ℚ` (retry-delay arithmetic); JavaScript strings are modelled as
`List Char` (`Str`) so that slicing by character index matches the UTF-16
code-unit slicing the source performs on the (ASCII) inputs involved.
-/

namespace FetchNode

/-- Error codes, from `src/utils/errors.ts` (`enum ErrorCode`). -/
inductive ErrorCode
  | NETWORK_TIMEOUT
  | DNS_FAILURE
  | CONNECTION_ERROR
  | CLIENT_ERROR_4XX
  | SERVER_ERROR_5XX
  | CIRCUIT_BREAKER_OPEN
  | ROBOTS_TXT_BLOCKED
  | FETCH_ERROR
  | ABORT_ERROR
  deriving DecidableEq, Repr

/-- Retryability flag, from `src/utils/errors.ts` (`enum ErrorType`). -/
inductive ErrorType
  | RETRYABLE
  | NON_RETRYABLE
  deriving DecidableEq, Repr

/-- A classified error: the `code`/`type` payload of the source's
`FetchError` class (`src/utils/errors.ts`).  Message text, status code and
cause do not influence any of the control flow modelled here. -/
structure FetchError where
  code : ErrorCode
  type : ErrorType
  deriving DecidableEq, Repr

/-- Whether `a` starts with `b` (character lists). -/
def charsStartsWith : List Char → List Char → Bool
  | _, [] => true
  | [], _ :: _ => false
  | a :: as, b :: bs => a == b && charsStartsWith as bs

/-- Whether `pat` occurs as a contiguous substring of `hay`; models JavaScript
`String.prototype.includes`. -/
def charsContains : List Char → List Char → Bool
  | [], pat => charsStartsWith [] pat
  | hay@(_ :: rest), pat => charsStartsWith hay pat || charsContains rest pat

/-- JavaScript `s.includes(pat)` on Lean strings. -/
def strContains (s pat : String) : Bool :=
  charsContains s.data pat.data

/-- JavaScript `s.toLowerCase()` (ASCII case mapping suffices for the
classifier's patterns). -/
def strToLower (s : String) : String :=
  String.mk (s.data.map Char.toLower)

/-- A raw (unclassified) error as observed by `classifyError`: the JavaScript
error's `name` and `message`.  `classifyError`'s first branch returns an
already-classified `FetchError` unchanged; `RawError` models the raw inputs
that reach the classification chain. -/
structure RawError where
  name : String
  message : String
  deriving DecidableEq, Repr

/-- Cancellation indicators, from `src/utils/errors.ts` lines 103. -/
def isCancelIndicator (e : RawError) : Bool :=
  e.name == "AbortError" || strContains (strToLower e.message) "aborted"

/-- Timeout indicators, from `src/utils/errors.ts` lines 112-116. -/
def isTimeoutIndicator (e : RawError) : Bool :=
  strContains (strToLower e.message) "timeout" ||
    strContains (strToLower e.message) "timed out" || e.name == "TimeoutError"

/-- DNS-resolution indicators, from `src/utils/errors.ts` lines 125-129. -/
def isDnsIndicator (e : RawError) : Bool :=
  strContains (strToLower e.message) "enotfound" ||
    strContains (strToLower e.message) "getaddrinfo" ||
    strContains (strToLower e.message) "dns"

/-- Connection indicators, from `src/utils/errors.ts` lines 138-144. -/
def isConnectionIndicator (e : RawError) : Bool :=
  strContains (strToLower e.message) "econnrefused" ||
    strContains (strToLower e.message) "econnreset" ||
    strContains (strToLower e.message) "epipe" ||
    strContains (strToLower e.message) "network" ||
    strContains (strToLower e.message) "socket"

/-- Embedding of `classifyError` from `src/utils/errors.ts` lines 94-159, on raw
(not-yet-classified) errors: first-match chain over the indicator groups. -/
def classifyError (e : RawError) : FetchError :=
  if isCancelIndicator e then
    ⟨ErrorCode.ABORT_ERROR, ErrorType.NON_RETRYABLE⟩
  else if isTimeoutIndicator e then
    ⟨ErrorCode.NETWORK_TIMEOUT, ErrorType.RETRYABLE⟩
  else if isDnsIndicator e then
    ⟨ErrorCode.DNS_FAILURE, ErrorType.NON_RETRYABLE⟩
  else if isConnectionIndicator e then
    ⟨ErrorCode.CONNECTION_ERROR, ErrorType.RETRYABLE⟩
  else
    ⟨ErrorCode.FETCH_ERROR, ErrorType.RETRYABLE⟩

/-- Embedding of the `createHttpError` status mapping from `src/utils/errors.ts` lines 161-190
(only the code/type payload). -/
def createHttpError (statusCode : Nat) : FetchError :=
  if 400 ≤ statusCode ∧ statusCode < 500 then
    ⟨ErrorCode.CLIENT_ERROR_4XX, ErrorType.NON_RETRYABLE⟩
  else if 500 ≤ statusCode ∧ statusCode < 600 then
    ⟨ErrorCode.SERVER_ERROR_5XX, ErrorType.RETRYABLE⟩
  else
    ⟨ErrorCode.FETCH_ERROR, ErrorType.NON_RETRYABLE⟩

/-- Circuit states, from `src/services/circuit-breaker.ts`
(`enum CircuitBreakerState`). -/
inductive CircuitBreakerState
  | CLOSED
  | OPEN
  | HALF_OPEN
  deriving DecidableEq, Repr

/-- Breaker configuration, from `src/services/circuit-breaker.ts`
(`interface CircuitBreakerConfig`); times in milliseconds. -/
structure CircuitBreakerConfig where
  failureThreshold : Nat
  cooldownPeriod : Nat
  halfOpenMaxAttempts : Nat
  deriving DecidableEq, Repr

/-- Embedding of `DEFAULT_CIRCUIT_BREAKER_CONFIG` from `src/services/circuit-breaker.ts`. -/
def DEFAULT_CIRCUIT_BREAKER_CONFIG : CircuitBreakerConfig :=
  ⟨5, 60000, 3⟩

/-- Per-origin mutable statistics, from `src/services/circuit-breaker.ts`
(`interface CircuitStats`). -/
structure CircuitStats where
  state : CircuitBreakerState
  failures : Nat
  lastFailureTime : Nat
  halfOpenAttempts : Nat
  successCount : Nat
  deriving DecidableEq, Repr

/-- The stats a lazily created circuit starts with
(`getOrCreateCircuit`, `src/services/circuit-breaker.ts` lines 151-164). -/
def freshCircuit : CircuitStats :=
  { state := CircuitBreakerState.CLOSED
    failures := 0
    lastFailureTime := 0
    halfOpenAttempts := 0
    successCount := 0 }

/-- Embedding of `transitionState` from `src/services/circuit-breaker.ts` lines 166-190:
set the new state, then stamp/reset the per-state counters.  `now` stands for
the `Date.now()` read inside the OPEN branch. -/
def transitionState (now : Nat) (c : CircuitStats) (newState : CircuitBreakerState) :
    CircuitStats :=
  let c := { c with state := newState }
  match newState with
  | CircuitBreakerState.OPEN => { c with lastFailureTime := now }
  | CircuitBreakerState.HALF_OPEN => { c with halfOpenAttempts := 0, successCount := 0 }
  | CircuitBreakerState.CLOSED =>
      { c with failures := 0, successCount := 0, halfOpenAttempts := 0 }

/-- Embedding of `checkAndUpdateState` from `src/services/circuit-breaker.ts` lines
192-199: lazy OPEN → HALF_OPEN transition once the cooldown has elapsed. -/
def checkAndUpdateState (cfg : CircuitBreakerConfig) (now : Nat) (c : CircuitStats) :
    CircuitStats :=
  if c.state = CircuitBreakerState.OPEN ∧ cfg.cooldownPeriod ≤ now - c.lastFailureTime then
    transitionState now c CircuitBreakerState.HALF_OPEN
  else
    c

/-- The `FetchError` thrown by the breaker when it rejects a call
(`src/services/circuit-breaker.ts` lines 211-215 and 223-227). -/
def circuitOpenError : FetchError :=
  ⟨ErrorCode.CIRCUIT_BREAKER_OPEN, ErrorType.NON_RETRYABLE⟩

/-- World state threaded through a request execution: the circuit of the
url's origin and the number of transport invocations performed so far. -/
structure World where
  breaker : CircuitStats
  transportCalls : Nat
  deriving DecidableEq, Repr

/-- An asynchronous operation, modelled as a state transformer over `World`
that either produces a value or throws a `FetchError`. -/
def Op (α : Type) : Type :=
  World → Except FetchError α × World

/-- Embedding of `RequestManager.execute` from `src/services/request-manager.ts` line
38-40: `queue.add(fn)` admits the task and runs it; for a single task the
admission is immediate, so the scheduler wrapper is the identity on the
operation's behaviour. -/
def schedulerExecute (op : Op α) : Op α :=
  op

/-- One transport call (`global.fetch` with response-status checking, as in
the operation passed to the wrappers): the outcome of the `n`-th call is
prescribed by the oracle `outcomes` (`none` = success, `some e` = the
classified failure), and the world's transport-call counter is bumped. -/
def transportPerform (outcomes : Nat → Option FetchError) : Op Unit := fun w =>
  (match outcomes w.transportCalls with
    | none => Except.ok ()
    | some e => Except.error e,
   { w with transportCalls := w.transportCalls + 1 })

/-- Embedding of `CircuitBreaker.execute` from `src/services/circuit-breaker.ts` lines
201-274, for the circuit held in the world: lazy state check, OPEN
rejection, HALF_OPEN probe admission, then run `op` and update the circuit
from its outcome.  `op`'s failures are already classified `FetchError`s (the
source wraps anything else into a retryable `FETCH_ERROR`, which is the
identity on this model's error type). -/
def breakerExecute (cfg : CircuitBreakerConfig) (now : Nat) (op : Op α) : Op α := fun w =>
  let c := checkAndUpdateState cfg now w.breaker
  if c.state = CircuitBreakerState.OPEN then
    (Except.error circuitOpenError, { w with breaker := c })
  else if c.state = CircuitBreakerState.HALF_OPEN ∧
      cfg.halfOpenMaxAttempts ≤ c.halfOpenAttempts then
    (Except.error circuitOpenError, { w with breaker := c })
  else
    let c := if c.state = CircuitBreakerState.HALF_OPEN then
        { c with halfOpenAttempts := c.halfOpenAttempts + 1 }
      else c
    let res := op { w with breaker := c }
    match res with
    | (Except.ok a, w') =>
        let c' := w'.breaker
        let c'' :=
          if c'.state = CircuitBreakerState.HALF_OPEN then
            let c2 := { c' with successCount := c'.successCount + 1 }
            if 2 ≤ c2.successCount then transitionState now c2 CircuitBreakerState.CLOSED
            else c2
          else
            { c' with failures := c'.failures - 1 }
        (Except.ok a, { w' with breaker := c'' })
    | (Except.error e, w') =>
        if e.type = ErrorType.RETRYABLE then
          let c2 := { w'.breaker with failures := w'.breaker.failures + 1 }
          let c3 :=
            if c2.state = CircuitBreakerState.HALF_OPEN then
              transitionState now c2 CircuitBreakerState.OPEN
            else if cfg.failureThreshold ≤ c2.failures then
              transitionState now c2 CircuitBreakerState.OPEN
            else c2
          (Except.error e, { w' with breaker := c3 })
        else
          (Except.error e, w')

deriving instance DecidableEq for Except

/-- Result of a single `CircuitBreaker.execute` call on one circuit. -/
structure ExecOut where
  result : Except FetchError Unit
  circuit : CircuitStats
  calls : Nat
  deriving DecidableEq, Repr

/-- One `CircuitBreaker.execute` call at time `now` on circuit `c`, where
the wrapped operation's outcome is `oc` (`Except.ok ()` = success).
`calls` counts how often the wrapped operation ran (0 or 1). -/
def execOnce (cfg : CircuitBreakerConfig) (now : Nat) (c : CircuitStats)
    (oc : Except FetchError Unit) : ExecOut :=
  let r := breakerExecute cfg now
    (fun w => (oc, { w with transportCalls := w.transportCalls + 1 }))
    { breaker := c, transportCalls := 0 }
  { result := r.1, circuit := r.2.breaker, calls := r.2.transportCalls }

/-- The breaker's circuit map (`private readonly circuits = new Map(...)`),
keyed by origin; an association list with at most one entry per key. -/
def CircuitMap : Type :=
  List (String × CircuitStats)

/-- Lookup, as `Map.get`. -/
def mapGet (m : CircuitMap) (k : String) : Option CircuitStats :=
  (m.find? (fun p => p.1 == k)).map (·.2)

/-- Update, as `Map.set` (replace or insert). -/
def mapSet (m : CircuitMap) (k : String) (v : CircuitStats) : CircuitMap :=
  match m with
  | [] => [(k, v)]
  | p :: rest => if p.1 == k then (k, v) :: rest else p :: mapSet rest k v

/-- Embedding of `CircuitBreaker.getState` from `src/services/circuit-breaker.ts` lines
276-280: read the circuit's state (default CLOSED), performing no lazy
transition and no mutation — the map is returned unchanged. -/
def getState (m : CircuitMap) (domain : String) : CircuitBreakerState × CircuitMap :=
  (((mapGet m domain).map (·.state)).getD CircuitBreakerState.CLOSED, m)

/-- Map-level `CircuitBreaker.execute`: fetch-or-create the origin's circuit,
run `execOnce`, store the updated circuit back. -/
def executeMap (cfg : CircuitBreakerConfig) (now : Nat) (m : CircuitMap)
    (domain : String) (oc : Except FetchError Unit) :
    Except FetchError Unit × CircuitMap × Nat :=
  let c := (mapGet m domain).getD freshCircuit
  let r := execOnce cfg now c oc
  (r.result, mapSet m domain r.circuit, r.calls)

/-- A sequence of `execute` calls on one circuit: call `i` (counting from
`i0`) happens at time `times (i0 + i)` with outcome `ocs (i0 + i)`. -/
def runCalls (cfg : CircuitBreakerConfig) (times : Nat → Nat)
    (ocs : Nat → Except FetchError Unit) : Nat → Nat → CircuitStats → CircuitStats
  | _, 0, c => c
  | i0, n + 1, c =>
      runCalls cfg times ocs (i0 + 1) n (execOnce cfg (times i0) c (ocs i0)).circuit

/-- Retry configuration, from `src/utils/retry.ts` (`interface RetryConfig`).
Delays are modelled over `ℚ` (idealising JavaScript float arithmetic). -/
structure RetryConfig where
  maxRetries : Nat
  initialDelay : ℚ
  maxDelay : ℚ
  jitterFactor : ℚ
  deriving DecidableEq, Repr

/-- Embedding of `DEFAULT_RETRY_CONFIG` from `src/utils/retry.ts`. -/
def DEFAULT_RETRY_CONFIG : RetryConfig :=
  ⟨3, 1000, 10000, 3/10⟩

/-- Embedding of `calculateDelay` from `src/utils/retry.ts` lines 159-166.  `rand` is the
`Math.random()` draw, a rational in `[0, 1)`:
exponential delay capped at `maxDelay`, plus jitter
`cappedDelay * jitterFactor * (rand - 0.5) * 2`, floored and clamped at 0. -/
def calculateDelay (attempt : Nat) (cfg : RetryConfig) (rand : ℚ) : ℤ :=
  let exponentialDelay := cfg.initialDelay * 2 ^ attempt
  let cappedDelay := min exponentialDelay cfg.maxDelay
  let jitter := cappedDelay * cfg.jitterFactor * (rand - 1/2) * 2
  max 0 ⌊cappedDelay + jitter⌋

/-- Observable trace of one `retryWithBackoff` run: how often the wrapped
operation was invoked, the delays slept between attempts, and the final
result (`Except.ok ()` or the last error rethrown). -/
structure RetryTrace where
  invocations : Nat
  delays : List ℤ
  result : Except FetchError Unit
  deriving DecidableEq, Repr

/-- The attempt loop of `retryWithBackoff` (`src/utils/retry.ts` lines
176-217), starting at `attempt` with `fuel` loop iterations left
(`fuel = maxRetries + 1 - attempt` at every reachable call).  The outcome of
the `i`-th invocation of `fn` is `outcomes i` (`none` = success); `rands i`
is the jitter draw used before the retry that follows attempt `i`.  The
fuel-exhausted case realises the source's unreachable
`'Unexpected retry state'` path. -/
def retryGo (cfg : RetryConfig) (outcomes : Nat → Option FetchError)
    (rands : Nat → ℚ) : Nat → Nat → RetryTrace
  | _, 0 => ⟨0, [], Except.error ⟨ErrorCode.FETCH_ERROR, ErrorType.NON_RETRYABLE⟩⟩
  | attempt, fuel + 1 =>
      match outcomes attempt with
      | none => ⟨1, [], Except.ok ()⟩
      | some e =>
          if e.type = ErrorType.NON_RETRYABLE then ⟨1, [], Except.error e⟩
          else if attempt < cfg.maxRetries then
            let d := calculateDelay attempt cfg (rands attempt)
            let t := retryGo cfg outcomes rands (attempt + 1) fuel
            ⟨t.invocations + 1, d :: t.delays, t.result⟩
          else ⟨1, [], Except.error e⟩

/-- Embedding of `retryWithBackoff` from `src/utils/retry.ts` lines 168-228: the loop
`for (attempt = 0; attempt <= maxRetries; attempt++)`. -/
def retryWithBackoff (cfg : RetryConfig) (outcomes : Nat → Option FetchError)
    (rands : Nat → ℚ) : RetryTrace :=
  retryGo cfg outcomes rands 0 (cfg.maxRetries + 1)

/-- The same `retryWithBackoff` loop as an operation wrapper over `World`
(delays only affect wall-clock sleeping, not the world).  Used to spell out
the composition the spec prescribes for the streaming fetch. -/
def retryExecGo (cfg : RetryConfig) (op : Op α) : Nat → Nat → Op α
  | _, 0 => fun w => (Except.error ⟨ErrorCode.FETCH_ERROR, ErrorType.NON_RETRYABLE⟩, w)
  | attempt, fuel + 1 => fun w =>
      match op w with
      | (Except.ok a, w') => (Except.ok a, w')
      | (Except.error e, w') =>
          if e.type = ErrorType.NON_RETRYABLE then (Except.error e, w')
          else if attempt < cfg.maxRetries then retryExecGo cfg op (attempt + 1) fuel w'
          else (Except.error e, w')

/-- The `retryWithBackoff` loop as an operation wrapper. -/
def retryExecute (cfg : RetryConfig) (op : Op α) : Op α :=
  retryExecGo cfg op 0 (cfg.maxRetries + 1)

/-- Embedding of `streamFetch` from `src/utils/fetch-stream.ts` lines 14-120, restricted
to its request wrapping: the transport call (`global.fetch` plus status and
body checks) is passed to `requestManager.execute` and to nothing else —
neither the circuit breaker nor the retry orchestrator appears in this code
path. -/
def streamFetch (outcomes : Nat → Option FetchError) : Op Unit :=
  schedulerExecute (transportPerform outcomes)

/-- Modelled from the spec: the composition §4.6/§2 prescribes for the
streaming fetch, `Scheduler.execute(() => Breaker.execute(origin, () =>
Retry.retry(() => Transport.perform(...))))`, assembled from the embedded
scheduler, breaker, retry and transport models.  This definition follows
the spec's words and exists to be compared with `streamFetch` above. -/
def specStreamFetch (cfg : CircuitBreakerConfig) (rcfg : RetryConfig) (now : Nat)
    (outcomes : Nat → Option FetchError) : Op Unit :=
  schedulerExecute (breakerExecute cfg now (retryExecute rcfg (transportPerform outcomes)))

/-- JavaScript strings as character lists (UTF-16 code units coincide with
characters on the ASCII inputs involved). -/
abbrev Str := List Char

/-- Lowercase a character list (ASCII case mapping). -/
def toLowerStr (s : Str) : Str :=
  s.map Char.toLower

/-- HTML whitespace inside tags (space, tab, newline, form feed, carriage
return). -/
def isTagWs (c : Char) : Bool :=
  c == ' ' || c == '\t' || c == '\n' || c == '\x0c' || c == '\r'

/-- Parser events fed to the formatter's callbacks
(`onopentag` / `ontext` / `onclosetag`). -/
inductive HtmlEvent
  | tagOpen (name : Str) (attrs : List (Str × Str))
  | textRun (s : Str)
  | tagClose (name : Str)
  deriving DecidableEq, Repr

/-- Tokenizer modes of the streaming HTML parser (htmlparser2's tokenizer
states restricted to the fragment this development models: tags with
quoted/unquoted attributes, closing tags and text; no comments, CDATA,
entities, special raw-text handling or implied end tags). -/
inductive TokMode
  | text
  | tagStart
  | tagName
  | closeTagName
  | closeTagEnd
  | beforeAttr
  | attrKey
  | afterAttrKey
  | beforeAttrValue
  | valueDq
  | valueSq
  | valueUnq
  deriving DecidableEq, Repr

/-- Streaming parser state: tokenizer accumulators plus the parser's stack of
currently open elements (used for end-of-input close events and for matching
close tags). -/
structure TokState where
  mode : TokMode
  textAcc : Str
  nameAcc : Str
  attrs : List (Str × Str)
  keyAcc : Str
  valAcc : Str
  openTags : List Str
  deriving DecidableEq, Repr

/-- Initial parser state. -/
def tokInit : TokState :=
  ⟨TokMode.text, [], [], [], [], [], []⟩

/-- HTML void elements: the parser emits an immediate close event for them
and does not push them on the open-element stack. -/
def voidTags : List Str :=
  ["area", "base", "br", "col", "embed", "hr", "img", "input", "link",
    "meta", "param", "source", "track", "wbr"].map String.data

/-- Record the accumulated attribute (first occurrence of a name wins, as in
the parser's `onattribute`). -/
def pushAttr (st : TokState) : TokState :=
  let key := toLowerStr st.keyAcc
  let attrs :=
    if (st.attrs.find? (fun p => p.1 == key)).isSome then st.attrs
    else st.attrs ++ [(key, st.valAcc)]
  { st with attrs := attrs, keyAcc := [], valAcc := [] }

/-- Emit the completed open tag: lowercase the name, emit the open event
(plus an immediate close event for void elements), push non-void tags on the
open-element stack, reset the tag accumulators. -/
def finishOpenTag (st : TokState) : TokState × List HtmlEvent :=
  let tag := toLowerStr st.nameAcc
  let isVoid := voidTags.contains tag
  let evs :=
    if isVoid then [HtmlEvent.tagOpen tag st.attrs, HtmlEvent.tagClose tag]
    else [HtmlEvent.tagOpen tag st.attrs]
  ({ st with
      mode := TokMode.text, nameAcc := [], attrs := [], keyAcc := [], valAcc := [],
      openTags := if isVoid then st.openTags else tag :: st.openTags }, evs)

/-- Pop open elements up to and including `name`, emitting a close event for
each popped element (the parser closes implicitly open children first). -/
def closeThrough (name : Str) : List Str → List HtmlEvent × List Str
  | [] => ([], [])
  | t :: rest =>
      if t == name then ([HtmlEvent.tagClose t], rest)
      else
        let (evs, rem) := closeThrough name rest
        (HtmlEvent.tagClose t :: evs, rem)

/-- Emit the completed close tag: if the element is open, close through it;
a stray close tag with no matching open element produces no event. -/
def finishCloseTag (st : TokState) : TokState × List HtmlEvent :=
  let tag := toLowerStr st.nameAcc
  let (evs, rem) :=
    if st.openTags.contains tag then closeThrough tag st.openTags
    else ([], st.openTags)
  ({ st with mode := TokMode.text, nameAcc := [], openTags := rem }, evs)

/-- One tokenizer step on one character. -/
def tokStep (st : TokState) (c : Char) : TokState × List HtmlEvent :=
  match st.mode with
  | TokMode.text =>
      if c == '<' then
        let evs := if st.textAcc = [] then [] else [HtmlEvent.textRun st.textAcc]
        ({ st with mode := TokMode.tagStart, textAcc := [] }, evs)
      else ({ st with textAcc := st.textAcc ++ [c] }, [])
  | TokMode.tagStart =>
      if c == '/' then ({ st with mode := TokMode.closeTagName, nameAcc := [] }, [])
      else if c == '>' then ({ st with mode := TokMode.text }, [])
      else ({ st with mode := TokMode.tagName, nameAcc := [c] }, [])
  | TokMode.tagName =>
      if c == '>' then finishOpenTag st
      else if isTagWs c then ({ st with mode := TokMode.beforeAttr }, [])
      else if c == '/' then (st, [])
      else ({ st with nameAcc := st.nameAcc ++ [c] }, [])
  | TokMode.closeTagName =>
      if c == '>' then finishCloseTag st
      else if isTagWs c then ({ st with mode := TokMode.closeTagEnd }, [])
      else ({ st with nameAcc := st.nameAcc ++ [c] }, [])
  | TokMode.closeTagEnd =>
      if c == '>' then finishCloseTag st
      else (st, [])
  | TokMode.beforeAttr =>
      if c == '>' then finishOpenTag st
      else if c == '/' then (st, [])
      else if isTagWs c then (st, [])
      else ({ st with mode := TokMode.attrKey, keyAcc := [c] }, [])
  | TokMode.attrKey =>
      if c == '=' then ({ st with mode := TokMode.beforeAttrValue }, [])
      else if c == '>' then finishOpenTag (pushAttr st)
      else if isTagWs c || c == '/' then ({ st with mode := TokMode.afterAttrKey }, [])
      else ({ st with keyAcc := st.keyAcc ++ [c] }, [])
  | TokMode.afterAttrKey =>
      if c == '=' then ({ st with mode := TokMode.beforeAttrValue }, [])
      else if c == '>' then finishOpenTag (pushAttr st)
      else if isTagWs c || c == '/' then (st, [])
      else ({ pushAttr st with mode := TokMode.attrKey, keyAcc := [c] }, [])
  | TokMode.beforeAttrValue =>
      if c == '"' then ({ st with mode := TokMode.valueDq, valAcc := [] }, [])
      else if c == '\'' then ({ st with mode := TokMode.valueSq, valAcc := [] }, [])
      else if c == '>' then finishOpenTag (pushAttr st)
      else if isTagWs c then (st, [])
      else ({ st with mode := TokMode.valueUnq, valAcc := [c] }, [])
  | TokMode.valueDq =>
      if c == '"' then ({ pushAttr st with mode := TokMode.beforeAttr }, [])
      else ({ st with valAcc := st.valAcc ++ [c] }, [])
  | TokMode.valueSq =>
      if c == '\'' then ({ pushAttr st with mode := TokMode.beforeAttr }, [])
      else ({ st with valAcc := st.valAcc ++ [c] }, [])
  | TokMode.valueUnq =>
      if c == '>' then finishOpenTag (pushAttr st)
      else if isTagWs c then ({ pushAttr st with mode := TokMode.beforeAttr }, [])
      else ({ st with valAcc := st.valAcc ++ [c] }, [])

/-- Run the tokenizer over a list of characters, concatenating events. -/
def tokChars : TokState → Str → TokState × List HtmlEvent
  | st, [] => (st, [])
  | st, c :: cs =>
      let (st', evs) := tokStep st c
      let (st'', evs') := tokChars st' cs
      (st'', evs ++ evs')

/-- The tokenizer's end-of-write cleanup: a pending text section is emitted
immediately rather than buffered across writes (htmlparser2's streaming
`cleanup`, the behaviour that bounds parser memory: text interrupted by a
chunk boundary is delivered as multiple `ontext` events). -/
def tokCleanup (st : TokState) : TokState × List HtmlEvent :=
  if st.mode = TokMode.text ∧ st.textAcc ≠ [] then
    ({ st with textAcc := [] }, [HtmlEvent.textRun st.textAcc])
  else (st, [])

/-- Models `parser.write(chunk)`: consume the characters, then run the cleanup. -/
def tokWrite (st : TokState) (s : Str) : TokState × List HtmlEvent :=
  let (st', evs) := tokChars st s
  let (st'', evs') := tokCleanup st'
  (st'', evs ++ evs')

/-- Models `parser.end()`: flush any pending text, then close all still-open
elements. -/
def tokEndEvents (st : TokState) : List HtmlEvent :=
  (tokCleanup st).2 ++ st.openTags.map HtmlEvent.tagClose

/-- All events produced by writing the chunks in order and ending the
parser. -/
def allEventsFrom : TokState → List Str → List HtmlEvent
  | st, [] => tokEndEvents st
  | st, s :: rest =>
      let (st', evs) := tokWrite st s
      evs ++ allEventsFrom st' rest

/-- Every internal chunk boundary leaves the tokenizer with an empty pending
text section (no boundary splits a text run). -/
def chunkBoundariesSafe : TokState → List Str → Bool
  | _, [] => true
  | _, [_] => true
  | st, s :: rest =>
      let st' := (tokChars st s).1
      st'.textAcc == [] && chunkBoundariesSafe st' rest

/-- Embedding of `SKIP_TAGS` from `src/utils/markdown-stream.ts` lines 4-19. -/
def skipTags : List Str :=
  ["template", "script", "style", "img", "svg", "nav", "footer", "header",
    "head", "button", "form", "input", "textarea", "select"].map String.data

/-- Embedding of `HIDDEN_CLASS_SNIPPETS` from `src/utils/markdown-stream.ts` line 21. -/
def hiddenClassSnippets : List Str :=
  ["hide", "sr-only", "d-none", "toc"].map String.data

/-- Attribute lookup on the parser's attribute record. -/
def attrGet (attribs : List (Str × Str)) (k : String) : Option Str :=
  (attribs.find? (fun p => p.1 == k.data)).map (·.2)

/-- Embedding of `hasHiddenAttributes` from `src/utils/markdown-stream.ts` lines 39-48. -/
def hasHiddenAttributes (attribs : List (Str × Str)) : Bool :=
  if (attrGet attribs "hidden").isSome then true
  else if (match attrGet attribs "aria-hidden" with
      | some v => !(v == "false".data)
      | none => false) then true
  else if attrGet attribs "type" == some "button".data then true
  else
    let className := (attrGet attribs "class").getD []
    if className ≠ [] then hiddenClassSnippets.any (fun s => charsContains className s)
    else false

/-- Decimal digits of a character list, as `Number.parseInt` reads them
(`none` on empty or non-digit input). -/
def strDigits? (s : Str) : Option Nat :=
  match s with
  | [] => none
  | ds =>
      if ds.all Char.isDigit then
        some (ds.foldl (fun n c => n * 10 + (c.toNat - 48)) 0)
      else none

/-- Embedding of `headingPrefix` from `src/utils/markdown-stream.ts` lines
50-54: `#` repeated `clamp(level, 1, 6)` times. -/
def headingMarks (tag : Str) : Str :=
  match strDigits? (tag.drop 1) with
  | none => []
  | some level => List.replicate (min 6 (max 1 level)) '#'

/-- Decimal representation of a natural number as characters. -/
def natToCharsAux : Nat → Nat → Str
  | 0, _ => []
  | fuel + 1, n =>
      if n < 10 then [Char.ofNat (48 + n)]
      else natToCharsAux fuel (n / 10) ++ [Char.ofNat (48 + n % 10)]

/-- Models `n.toString()` for the ordered-list counter. -/
def natToChars (n : Nat) : Str :=
  natToCharsAux (n + 1) n

/-- JavaScript `\s` (the source's regexes and trims), restricted to the
ASCII whitespace characters. -/
def isJsWs (c : Char) : Bool :=
  c == ' ' || c == '\t' || c == '\n' || c == '\x0b' || c == '\x0c' || c == '\r'

/-- Models `content.replace` of whitespace runs by single spaces. -/
def collapseWsAux : Bool → Str → Str
  | _, [] => []
  | prev, c :: rest =>
      if isJsWs c then
        if prev then collapseWsAux true rest
        else ' ' :: collapseWsAux true rest
      else c :: collapseWsAux false rest

/-- Collapse whitespace runs to single spaces. -/
def collapseWs (s : Str) : Str :=
  collapseWsAux false s

/-- Models `content.trimStart()`. -/
def trimStartStr (s : Str) : Str :=
  s.dropWhile isJsWs

/-- Models `content.trimEnd()`. -/
def trimEndStr (s : Str) : Str :=
  (s.reverse.dropWhile isJsWs).reverse

/-- Models `content.trim()`. -/
def trimStr (s : Str) : Str :=
  trimEndStr (trimStartStr s)

/-- Models `s.endsWith(c)` for one character. -/
def endsWith1 (s : Str) (c : Char) : Bool :=
  match s.reverse with
  | [] => false
  | x :: _ => x == c

/-- Models `s.endsWith` for two characters (used for the double-newline test;
`b` is the final character). -/
def endsWith2 (s : Str) (a b : Char) : Bool :=
  match s.reverse with
  | y :: x :: _ => x == a && y == b
  | _ => false

/-- One formatter stack frame (`interface StackEntry`,
`src/utils/markdown-stream.ts` lines 23-32). -/
structure StackEntry where
  tag : Str
  skip : Bool
  preserveWhitespace : Bool := false
  formattingSuffix : Option Str := none
  block : Bool := false
  anchorStart : Option Nat := none
  anchorHref : Option Str := none
  blockquote : Bool := false
  deriving DecidableEq, Repr

/-- Tag kind `'ul' | 'ol'`. -/
inductive ListKind
  | ul
  | ol
  deriving DecidableEq, Repr

/-- One list-context frame (`interface ListEntry`,
`src/utils/markdown-stream.ts` lines 34-37). -/
structure ListEntry where
  type : ListKind
  index : Nat
  deriving DecidableEq, Repr

/-- The formatter's mutable state (the closure-captured variables of
`htmlToMarkdownStream`): output buffer, the yielded/queued output chunks in
order (`outputQueue` plus everything already yielded), the tag-frame stack
and list stack (top at the head), the skip depth and the last appended
character. -/
structure FmtState where
  buffer : Str
  outputAcc : List Str
  stack : List StackEntry
  listStack : List ListEntry
  skipDepth : Nat
  lastChar : Char
  deriving DecidableEq, Repr

/-- Initial formatter state (`buffer = ''`, `lastChar = '\n'`). -/
def fmtInit : FmtState :=
  ⟨[], [], [], [], 0, '\n'⟩

/-- Embedding of `getBlockquoteDepth` (lines 72-73): blockquote frames on the stack. -/
def blockquoteDepth (stack : List StackEntry) : Nat :=
  stack.foldl (fun d e => d + (if e.blockquote then 1 else 0)) 0

/-- A frame holds a pending anchor (`entry.anchorHref && entry.anchorStart
!== undefined`; an empty `href` string is falsy in JavaScript). -/
def pendingAnchor (e : StackEntry) : Bool :=
  (match e.anchorHref with
    | some v => !(v == ([] : Str))
    | none => false) && e.anchorStart.isSome

/-- Embedding of `canFlush` (lines 75-76): outside skip regions and with no pending
anchor frame. -/
def canFlush (st : FmtState) : Bool :=
  st.skipDepth == 0 && !(st.stack.any pendingAnchor)

/-- Embedding of `pushOutput` (lines 78-85): move the buffer to the output queue when
forced, or when it exceeds the chunk threshold and flushing is allowed. -/
def pushOutput (chunkSize : Nat) (force : Bool) (st : FmtState) : FmtState :=
  if st.buffer = [] then st
  else if force || (decide (chunkSize ≤ st.buffer.length) && canFlush st) then
    { st with outputAcc := st.outputAcc ++ [st.buffer], buffer := [], lastChar := '\n' }
  else st

/-- Embedding of `ensureNewline` (lines 87-96) at its only used count (1): append one
newline. -/
def ensureNewline (st : FmtState) : FmtState :=
  { st with buffer := st.buffer ++ ['\n'], lastChar := '\n' }

/-- Embedding of `ensureDoubleNewline` (lines 98-107). -/
def ensureDoubleNewline (st : FmtState) : FmtState :=
  if st.buffer = [] then st
  else if endsWith2 st.buffer '\n' '\n' then st
  else if endsWith1 st.buffer '\n' then
    { st with buffer := st.buffer ++ ['\n'], lastChar := '\n' }
  else { st with buffer := st.buffer ++ ['\n', '\n'], lastChar := '\n' }

/-- Insert `'> ' × depth` at the start of every line that begins a non-empty
non-newline run: the replacement `content.replace(/(^|\n)(?=[^\n])/g, ...)`
(lines 138-141). -/
def quoteBody (pre : Str) : Str → Str
  | [] => []
  | c :: rest =>
      if c == '\n' then
        c :: (match rest with
          | [] => []
          | d :: _ => if d == '\n' then quoteBody pre rest else pre ++ quoteBody pre rest)
      else c :: quoteBody pre rest

/-- Apply the blockquote prefixes to `content` (identity at depth 0, as the
source only runs the replacement when `depth > 0`). -/
def addQuoteMarks (depth : Nat) (content : Str) : Str :=
  if depth = 0 then content
  else
    let pre := (List.replicate depth "> ".data).flatten
    match content with
    | [] => []
    | c :: _ => if c == '\n' then quoteBody pre content else pre ++ quoteBody pre content

/-- Append `content` to the buffer and refresh `lastChar`
(`buffer[buffer.length - 1] ?? lastChar`). -/
def bufPush (st : FmtState) (content : Str) : FmtState :=
  let b := st.buffer ++ content
  { st with buffer := b, lastChar := b.getLastD st.lastChar }

/-- Embedding of `append` from `src/utils/markdown-stream.ts` lines 109-145: whitespace
collapsing and trimming outside preserve-whitespace context, blank-run
handling, blockquote prefixes, buffer append and `lastChar` update. -/
def appendText (st : FmtState) (text : Str) (preserve : Bool) : FmtState :=
  if text = [] then st
  else
    let depth := blockquoteDepth st.stack
    if preserve then bufPush st (addQuoteMarks depth text)
    else
      let content := collapseWs text
      if trimStr content = [] then
        if st.lastChar ≠ ' ' ∧ st.lastChar ≠ '\n' then
          { st with buffer := st.buffer ++ [' '], lastChar := ' ' }
        else st
      else
        let content := if st.lastChar == '\n' then trimStartStr content else content
        let content := if st.lastChar == ' ' then trimStartStr content else content
        let content := if endsWith1 content ' ' then trimEndStr content else content
        bufPush st (addQuoteMarks depth content)

/-- The non-skip part of `onopentag`'s switch (lines 163-252): structural
tokens for the recognized tags, and the stack frame pushed for `tag`. -/
def openTagAction (st : FmtState) (tag : Str) (attribs : List (Str × Str)) : FmtState :=
  let entry : StackEntry := { tag := tag, skip := false }
  if tag == "p".data || tag == "div".data || tag == "section".data ||
      tag == "article".data || tag == "main".data || tag == "aside".data then
    let st := ensureDoubleNewline st
    { st with stack := { entry with block := true } :: st.stack }
  else if tag == "br".data then
    let st := ensureNewline st
    { st with stack := entry :: st.stack }
  else if tag == "hr".data then
    let st := ensureDoubleNewline st
    let st := appendText st "---".data false
    let st := ensureDoubleNewline st
    { st with stack := entry :: st.stack }
  else if tag == "h1".data || tag == "h2".data || tag == "h3".data ||
      tag == "h4".data || tag == "h5".data || tag == "h6".data then
    let st := ensureDoubleNewline st
    let st := appendText st (headingMarks tag ++ [' ']) true
    { st with stack := { entry with block := true } :: st.stack }
  else if tag == "strong".data || tag == "b".data then
    let st := appendText st "**".data true
    { st with stack := { entry with formattingSuffix := some "**".data } :: st.stack }
  else if tag == "em".data || tag == "i".data then
    let st := appendText st "_".data true
    { st with stack := { entry with formattingSuffix := some "_".data } :: st.stack }
  else if tag == "code".data then
    let st := appendText st "`".data true
    { st with stack :=
        { entry with preserveWhitespace := true, formattingSuffix := some "`".data } ::
          st.stack }
  else if tag == "pre".data then
    let st := ensureDoubleNewline st
    let st := appendText st "```\n".data true
    { st with stack :=
        { entry with
            preserveWhitespace := true, formattingSuffix := some "\n```".data,
            block := true } :: st.stack }
  else if tag == "blockquote".data then
    let st := ensureDoubleNewline st
    { st with stack := { entry with blockquote := true, block := true } :: st.stack }
  else if tag == "ul".data then
    let st := ensureDoubleNewline st
    { st with
        listStack := ⟨ListKind.ul, 0⟩ :: st.listStack
        stack := { entry with block := true } :: st.stack }
  else if tag == "ol".data then
    let st := ensureDoubleNewline st
    { st with
        listStack := ⟨ListKind.ol, 0⟩ :: st.listStack
        stack := { entry with block := true } :: st.stack }
  else if tag == "li".data then
    let st := ensureNewline st
    let st :=
      match st.listStack with
      | current :: rest =>
          if current.type = ListKind.ol then
            let newIndex := current.index + 1
            let st := { st with listStack := ⟨ListKind.ol, newIndex⟩ :: rest }
            appendText st (natToChars newIndex ++ ". ".data) true
          else appendText st "- ".data true
      | [] => appendText st "- ".data true
    { st with stack := { entry with block := true } :: st.stack }
  else if tag == "a".data then
    let entry := { entry with
      anchorStart := some st.buffer.length
      anchorHref := attrGet attribs "href" }
    { st with stack := entry :: st.stack }
  else
    { st with stack := entry :: st.stack }

/-- Embedding of `onopentag` (lines 149-253): skip-region detection, then the tag
switch. -/
def handleOpenTag (st : FmtState) (name : Str) (attribs : List (Str × Str)) : FmtState :=
  let tag := toLowerStr name
  if 0 < st.skipDepth || skipTags.contains tag || hasHiddenAttributes attribs then
    { st with
        skipDepth := st.skipDepth + 1
        stack := { tag := tag, skip := true } :: st.stack }
  else openTagAction st tag attribs

/-- Embedding of `ontext` (lines 254-267): suppressed in skip regions; whitespace is
preserved when any open frame preserves it; then a flush check. -/
def handleTextRun (chunkSize : Nat) (st : FmtState) (text : Str) : FmtState :=
  if 0 < st.skipDepth then st
  else
    let preserve := st.stack.any (·.preserveWhitespace)
    pushOutput chunkSize false (appendText st text preserve)

/-- Embedding of `onclosetag` (lines 268-310): pop the frame; unwind skip regions; emit
deferred anchors, formatting suffixes and structural tokens; flush check.
The tag name passed by the parser is not consulted (the source pops
blindly). -/
def handleCloseTag (chunkSize : Nat) (st : FmtState) : FmtState :=
  match st.stack with
  | [] => st
  | entry :: rest =>
      let st := { st with stack := rest }
      if entry.skip then { st with skipDepth := st.skipDepth - 1 }
      else
        let st :=
          match entry.anchorHref, entry.anchorStart with
          | some href, some start =>
              if href = [] then st
              else
                let anchorContent := trimStr (st.buffer.drop start)
                let st := { st with buffer := st.buffer.take start }
                if anchorContent = [] then st
                else
                  appendText st
                    (('[' :: anchorContent) ++ (']' :: '(' :: href) ++ [')']) true
          | _, _ => st
        let st :=
          match entry.formattingSuffix with
          | some s => appendText st s true
          | none => st
        let st :=
          if entry.tag == "ul".data || entry.tag == "ol".data then
            ensureDoubleNewline { st with listStack := st.listStack.tail }
          else st
        let st := if entry.tag == "li".data then ensureNewline st else st
        let st := if entry.tag == "pre".data then ensureDoubleNewline st else st
        pushOutput chunkSize false st

/-- Dispatch one parser event to the formatter callbacks. -/
def handleEvent (chunkSize : Nat) (st : FmtState) : HtmlEvent → FmtState
  | HtmlEvent.tagOpen name attribs => handleOpenTag st name attribs
  | HtmlEvent.textRun s => handleTextRun chunkSize st s
  | HtmlEvent.tagClose _ => handleCloseTag chunkSize st

/-- Embedding of `htmlToMarkdownString` over `htmlToMarkdownStream`
(`src/utils/markdown-stream.ts` lines 61-358): write each chunk to the
parser, feed the resulting events to the formatter, end the parser, force
the final flush, and join every produced chunk.  The joined output is the
concatenation of the queued chunks plus the (always empty after the forced
flush) trailing buffer. -/
def htmlToMarkdownJoined (chunkSize : Nat) (chunks : List Str) : Str :=
  let fin := (allEventsFrom tokInit chunks).foldl (handleEvent chunkSize) fmtInit
  let fin := pushOutput chunkSize true fin
  fin.outputAcc.flatten ++ fin.buffer

/-- The retry configuration used to refute C4's delay lower bound:
`maxRetries 1, initialDelay 1ms, maxDelay 10ms, jitterFactor 0.3`. -/
def cfgRefute : RetryConfig :=
  ⟨1, 1, 10, 3/10⟩

/-- The golden-scenario document of C5 split into 3-character pieces. -/
def goldenChunks : List Str :=
  ["<h1".data, ">Ti".data, "tle".data, "</h".data, "1><".data, "p>H".data,
    "ell".data, "o <".data, "a h".data, "ref".data, "=\"h".data, "ttp".data,
    "s:/".data, "/x\"".data, ">wo".data, "rld".data, "</a".data, "></".data, "p>".data]

end FetchNode

namespace FetchNode

/-- C9: the error classifier applies first-match precedence over the five
groups — cancellation (non-retryable `ABORT_ERROR`), then timeout (retryable
`NETWORK_TIMEOUT`), then DNS (non-retryable `DNS_FAILURE`), then connection
(retryable `CONNECTION_ERROR`), then the retryable `FETCH_ERROR` default. -/
theorem classifyError_first_match_precedence :
    (∀ e : RawError, isCancelIndicator e = true →
      classifyError e = ⟨ErrorCode.ABORT_ERROR, ErrorType.NON_RETRYABLE⟩) ∧
    (∀ e : RawError, isCancelIndicator e = false → isTimeoutIndicator e = true →
      classifyError e = ⟨ErrorCode.NETWORK_TIMEOUT, ErrorType.RETRYABLE⟩) ∧
    (∀ e : RawError, isCancelIndicator e = false → isTimeoutIndicator e = false →
      isDnsIndicator e = true →
      classifyError e = ⟨ErrorCode.DNS_FAILURE, ErrorType.NON_RETRYABLE⟩) ∧
    (∀ e : RawError, isCancelIndicator e = false → isTimeoutIndicator e = false →
      isDnsIndicator e = false → isConnectionIndicator e = true →
      classifyError e = ⟨ErrorCode.CONNECTION_ERROR, ErrorType.RETRYABLE⟩) ∧
    (∀ e : RawError, isCancelIndicator e = false → isTimeoutIndicator e = false →
      isDnsIndicator e = false → isConnectionIndicator e = false →
      classifyError e = ⟨ErrorCode.FETCH_ERROR, ErrorType.RETRYABLE⟩) := by
  refine ⟨?_, ?_, ?_, ?_, ?_⟩ <;> intro e <;> intros <;>
    simp_all [classifyError]

/-- Witness for C9 at concrete inputs: one raw error per branch of the
classifier, with the earlier indicator groups evaluating to false. -/
theorem classifyError_first_match_precedence_witness :
    classifyError ⟨"AbortError", "x"⟩ =
        ⟨ErrorCode.ABORT_ERROR, ErrorType.NON_RETRYABLE⟩ ∧
      classifyError ⟨"Error", "connect ETIMEDOUT: Request Timeout"⟩ =
        ⟨ErrorCode.NETWORK_TIMEOUT, ErrorType.RETRYABLE⟩ ∧
      classifyError ⟨"Error", "getaddrinfo ENOTFOUND example.com"⟩ =
        ⟨ErrorCode.DNS_FAILURE, ErrorType.NON_RETRYABLE⟩ ∧
      classifyError ⟨"Error", "connect ECONNREFUSED 127.0.0.1:80"⟩ =
        ⟨ErrorCode.CONNECTION_ERROR, ErrorType.RETRYABLE⟩ ∧
      classifyError ⟨"Error", "boom"⟩ =
        ⟨ErrorCode.FETCH_ERROR, ErrorType.RETRYABLE⟩ := by
  refine ⟨?_, ?_, ?_, ?_, ?_⟩
  · exact classifyError_first_match_precedence.1 _ (by decide)
  · exact classifyError_first_match_precedence.2.1 _ (by decide) (by decide)
  · exact classifyError_first_match_precedence.2.2.1 _ (by decide) (by decide) (by decide)
  · exact classifyError_first_match_precedence.2.2.2.1 _ (by decide) (by decide) (by decide)
      (by decide)
  · exact classifyError_first_match_precedence.2.2.2.2 _ (by decide) (by decide) (by decide)
      (by decide)

end FetchNode

namespace FetchNode

/-- Helper: one CLOSED-state retryable failure below the threshold only
increments the failure counter. -/
theorem execOnce_closed_fail (cfg : CircuitBreakerConfig) (now : Nat) (c : CircuitStats)
    (e : FetchError) (he : e.type = ErrorType.RETRYABLE)
    (hs : c.state = CircuitBreakerState.CLOSED)
    (hlt : c.failures + 1 < cfg.failureThreshold) :
    (execOnce cfg now c (Except.error e)).circuit = { c with failures := c.failures + 1 } := by
  have hnotle : ¬ cfg.failureThreshold ≤ c.failures + 1 := by omega
  simp [execOnce, breakerExecute, checkAndUpdateState, hs, he, hnotle]

/-- Helper: the CLOSED-state retryable failure that reaches the threshold
opens the circuit and stamps the failure time. -/
theorem execOnce_closed_trip (cfg : CircuitBreakerConfig) (now : Nat) (c : CircuitStats)
    (e : FetchError) (he : e.type = ErrorType.RETRYABLE)
    (hs : c.state = CircuitBreakerState.CLOSED)
    (hge : cfg.failureThreshold ≤ c.failures + 1) :
    (execOnce cfg now c (Except.error e)).circuit =
      transitionState now { c with failures := c.failures + 1 }
        CircuitBreakerState.OPEN := by
  simp [execOnce, breakerExecute, checkAndUpdateState, hs, he, hge]

/-- Helper: a run of below-threshold CLOSED-state retryable failures adds
one failure per call and stays CLOSED. -/
theorem runCalls_closed_fails (cfg : CircuitBreakerConfig) (times : Nat → Nat)
    (e : FetchError) (he : e.type = ErrorType.RETRYABLE) :
    ∀ (n i0 : Nat) (c : CircuitStats), c.state = CircuitBreakerState.CLOSED →
      c.failures + n < cfg.failureThreshold →
      runCalls cfg times (fun _ => Except.error e) i0 n c =
        { c with failures := c.failures + n }
  | 0, i0, c, hs, _ => by simp [runCalls]
  | n + 1, i0, c, hs, hlt => by
      rw [runCalls]
      rw [execOnce_closed_fail cfg (times i0) c e he hs (by omega)]
      rw [runCalls_closed_fails cfg times e he n (i0 + 1)
        { c with failures := c.failures + 1 } (by simp [hs]) (by simp; omega)]
      simp
      omega

end FetchNode

namespace FetchNode

/-- Helper: looking up a key just stored in the circuit map yields the
stored circuit. -/
theorem mapGet_mapSet (m : CircuitMap) (k : String) (v : CircuitStats) :
    mapGet (mapSet m k v) k = some v := by
  induction m with
  | nil => simp [mapGet, mapSet, List.find?]
  | cons p rest ih =>
      by_cases h : p.1 == k
      · simp [mapGet, mapSet, h, List.find?]
      · simpa [mapGet, mapSet, h, List.find?] using ih

/-- C3: from a fresh CLOSED circuit, exactly `failureThreshold` consecutive
retryable failures (at arbitrary call times) leave the circuit OPEN — so a
map holding it reports OPEN through `getState` — and the next `execute`
call, arriving before the cooldown elapses, is rejected with the
CIRCUIT_BREAKER_OPEN non-retryable error without running the wrapped
operation: its transport-call count is 0 and the circuit is unchanged. -/
theorem circuit_opens_after_threshold_failures (cfg : CircuitBreakerConfig)
    (e : FetchError) (he : e.type = ErrorType.RETRYABLE)
    (hth : 1 ≤ cfg.failureThreshold) (times : Nat → Nat) (t' : Nat)
    (hcool : t' - times (cfg.failureThreshold - 1) < cfg.cooldownPeriod) :
    (runCalls cfg times (fun _ => Except.error e) 0 cfg.failureThreshold
        freshCircuit).state = CircuitBreakerState.OPEN ∧
    (∀ (m : CircuitMap) (domain : String),
      (getState (mapSet m domain
        (runCalls cfg times (fun _ => Except.error e) 0 cfg.failureThreshold
          freshCircuit)) domain).1 = CircuitBreakerState.OPEN) ∧
    (execOnce cfg t'
        (runCalls cfg times (fun _ => Except.error e) 0 cfg.failureThreshold freshCircuit)
        (Except.error e)).result = Except.error circuitOpenError ∧
    (execOnce cfg t'
        (runCalls cfg times (fun _ => Except.error e) 0 cfg.failureThreshold freshCircuit)
        (Except.error e)).calls = 0 ∧
    (execOnce cfg t'
        (runCalls cfg times (fun _ => Except.error e) 0 cfg.failureThreshold freshCircuit)
        (Except.error e)).circuit =
      runCalls cfg times (fun _ => Except.error e) 0 cfg.failureThreshold freshCircuit := by
  obtain ⟨n, hn⟩ : ∃ n, cfg.failureThreshold = n + 1 :=
    ⟨cfg.failureThreshold - 1, by omega⟩
  have hsplit : runCalls cfg times (fun _ => Except.error e) 0 cfg.failureThreshold
      freshCircuit =
      transitionState (times n) { freshCircuit with failures := n + 1 }
        CircuitBreakerState.OPEN := by
    have hrun : ∀ (j i0 : Nat) (c : CircuitStats),
        runCalls cfg times (fun _ => Except.error e) i0 (j + 1) c =
          (execOnce cfg (times (i0 + j))
            (runCalls cfg times (fun _ => Except.error e) i0 j c)
            (Except.error e)).circuit := by
      intro j
      induction j with
      | zero => intro i0 c; simp [runCalls]
      | succ k ih =>
          intro i0 c
          rw [runCalls, ih (i0 + 1), runCalls]
          have : i0 + (k + 1) = i0 + 1 + k := by omega
          rw [this]
    rw [hn, hrun n 0 freshCircuit]
    rcases Nat.eq_zero_or_pos n with h0 | hpos
    · subst h0
      rw [show runCalls cfg times (fun _ => Except.error e) 0 0 freshCircuit =
          freshCircuit from rfl]
      rw [execOnce_closed_trip cfg (times 0) freshCircuit e he rfl
        (by simp [freshCircuit]; omega)]
      simp [freshCircuit]
    · rw [runCalls_closed_fails cfg times e he n 0 freshCircuit rfl
        (by simp [freshCircuit]; omega)]
      rw [execOnce_closed_trip cfg (times (0 + n)) _ e he (by simp [freshCircuit])
        (by simp [freshCircuit]; omega)]
      simp [freshCircuit]
  rw [hsplit]
  have hstate : (transitionState (times n) { freshCircuit with failures := n + 1 }
      CircuitBreakerState.OPEN).state = CircuitBreakerState.OPEN := by
    simp [transitionState]
  have hlast : (transitionState (times n) { freshCircuit with failures := n + 1 }
      CircuitBreakerState.OPEN).lastFailureTime = times n := by
    simp [transitionState]
  have hnocool : ¬ cfg.cooldownPeriod ≤ t' -
      (transitionState (times n) { freshCircuit with failures := n + 1 }
        CircuitBreakerState.OPEN).lastFailureTime := by
    rw [hlast]
    have : n = cfg.failureThreshold - 1 := by omega
    rw [this]
    omega
  refine ⟨hstate, ?_, ?_, ?_, ?_⟩
  · intro m domain
    simp [getState, mapGet_mapSet, hstate]
  · simp [execOnce, breakerExecute, checkAndUpdateState, hstate, hnocool]
  · simp [execOnce, breakerExecute, checkAndUpdateState, hstate, hnocool]
  · simp [execOnce, breakerExecute, checkAndUpdateState, hstate, hnocool]

/-- Witness for C3 at a concrete input: threshold 2, calls at times 0 and 1,
next call at time 50 with cooldown 100. -/
theorem circuit_opens_after_threshold_failures_witness :
    (runCalls ⟨2, 100, 3⟩ (fun i => i)
        (fun _ => Except.error ⟨ErrorCode.SERVER_ERROR_5XX, ErrorType.RETRYABLE⟩) 0 2
        freshCircuit).state = CircuitBreakerState.OPEN ∧
    (execOnce ⟨2, 100, 3⟩ 50
        (runCalls ⟨2, 100, 3⟩ (fun i => i)
          (fun _ => Except.error ⟨ErrorCode.SERVER_ERROR_5XX, ErrorType.RETRYABLE⟩) 0 2
          freshCircuit)
        (Except.error ⟨ErrorCode.SERVER_ERROR_5XX, ErrorType.RETRYABLE⟩)).calls = 0 := by
  have h := circuit_opens_after_threshold_failures ⟨2, 100, 3⟩
    ⟨ErrorCode.SERVER_ERROR_5XX, ErrorType.RETRYABLE⟩ rfl (by decide) (fun i => i) 50
    (by decide)
  exact ⟨h.1, h.2.2.2.1⟩

end FetchNode

namespace FetchNode

/-- C6: HALF_OPEN behaviour.  (a) For an OPEN circuit whose cooldown has
elapsed, the arriving `execute` call first performs the lazy transition to
HALF_OPEN and then evaluates the call (one transport invocation, given a
positive probe budget); (b) from a freshly entered HALF_OPEN window, two
consecutive probe successes close the circuit; (c) a retryable probe failure
reopens it with the cooldown clock reset to the failure time; (d) once
`halfOpenMaxAttempts` probes have been admitted, further calls are rejected
without running the operation and without consuming a probe slot. -/
theorem half_open_probe_behaviour (cfg : CircuitBreakerConfig) :
    (∀ (now : Nat) (c : CircuitStats), c.state = CircuitBreakerState.OPEN →
      cfg.cooldownPeriod ≤ now - c.lastFailureTime →
      checkAndUpdateState cfg now c = transitionState now c CircuitBreakerState.HALF_OPEN ∧
      (∀ oc : Except FetchError Unit, 1 ≤ cfg.halfOpenMaxAttempts →
        (execOnce cfg now c oc).calls = 1)) ∧
    (∀ (now₁ now₂ : Nat) (c : CircuitStats), c.state = CircuitBreakerState.HALF_OPEN →
      c.successCount = 0 → c.halfOpenAttempts + 2 ≤ cfg.halfOpenMaxAttempts →
      ((execOnce cfg now₂ (execOnce cfg now₁ c (Except.ok ())).circuit
        (Except.ok ())).circuit).state = CircuitBreakerState.CLOSED) ∧
    (∀ (now : Nat) (c : CircuitStats) (e : FetchError),
      c.state = CircuitBreakerState.HALF_OPEN → e.type = ErrorType.RETRYABLE →
      c.halfOpenAttempts < cfg.halfOpenMaxAttempts →
      (execOnce cfg now c (Except.error e)).circuit.state = CircuitBreakerState.OPEN ∧
      (execOnce cfg now c (Except.error e)).circuit.lastFailureTime = now) ∧
    (∀ (now : Nat) (c : CircuitStats) (oc : Except FetchError Unit),
      c.state = CircuitBreakerState.HALF_OPEN →
      cfg.halfOpenMaxAttempts ≤ c.halfOpenAttempts →
      (execOnce cfg now c oc).result = Except.error circuitOpenError ∧
      (execOnce cfg now c oc).calls = 0 ∧
      (execOnce cfg now c oc).circuit = c) := by
  refine ⟨?_, ?_, ?_, ?_⟩
  · intro now c hs hcd
    have hcheck : checkAndUpdateState cfg now c =
        transitionState now c CircuitBreakerState.HALF_OPEN := by
      simp [checkAndUpdateState, hs, hcd]
    refine ⟨hcheck, ?_⟩
    intro oc hpos
    have hnotcap : ¬ cfg.halfOpenMaxAttempts ≤
        (transitionState now c CircuitBreakerState.HALF_OPEN).halfOpenAttempts := by
      simp [transitionState]; omega
    have hne : cfg.halfOpenMaxAttempts ≠ 0 := by omega
    cases oc <;>
      simp [execOnce, breakerExecute, hcheck, transitionState, hnotcap, hne]
    all_goals try (split <;> rfl)
  · intro now₁ now₂ c hs hsc hcap
    have hnotcap : ¬ cfg.halfOpenMaxAttempts ≤ c.halfOpenAttempts := by omega
    have h1 : (execOnce cfg now₁ c (Except.ok ())).circuit =
        { c with halfOpenAttempts := c.halfOpenAttempts + 1, successCount := 1 } := by
      simp [execOnce, breakerExecute, checkAndUpdateState, hs, hnotcap, hsc]
    rw [h1]
    have hnotcap2 : ¬ cfg.halfOpenMaxAttempts ≤ c.halfOpenAttempts + 1 := by omega
    simp [execOnce, breakerExecute, checkAndUpdateState, hs, hnotcap2, transitionState]
  · intro now c e hs he hcap
    have hnotcap : ¬ cfg.halfOpenMaxAttempts ≤ c.halfOpenAttempts := by omega
    simp [execOnce, breakerExecute, checkAndUpdateState, hs, hnotcap, he, transitionState]
  · intro now c oc hs hcap
    simp [execOnce, breakerExecute, checkAndUpdateState, hs, hcap]

/-- Witness for C6 at concrete inputs: config ⟨2, 100, 3⟩, an OPEN circuit
past its cooldown, a fresh HALF_OPEN circuit succeeding twice and failing
once, and a HALF_OPEN circuit with its probe budget used up. -/
theorem half_open_probe_behaviour_witness :
    checkAndUpdateState ⟨2, 100, 3⟩ 150 ⟨CircuitBreakerState.OPEN, 2, 10, 0, 0⟩ =
      transitionState 150 ⟨CircuitBreakerState.OPEN, 2, 10, 0, 0⟩
        CircuitBreakerState.HALF_OPEN ∧
    ((execOnce ⟨2, 100, 3⟩ 151
        (execOnce ⟨2, 100, 3⟩ 150 ⟨CircuitBreakerState.HALF_OPEN, 2, 10, 0, 0⟩
          (Except.ok ())).circuit
        (Except.ok ())).circuit).state = CircuitBreakerState.CLOSED ∧
    (execOnce ⟨2, 100, 3⟩ 160 ⟨CircuitBreakerState.HALF_OPEN, 2, 10, 0, 0⟩
        (Except.error ⟨ErrorCode.SERVER_ERROR_5XX, ErrorType.RETRYABLE⟩)).circuit.lastFailureTime
      = 160 ∧
    (execOnce ⟨2, 100, 3⟩ 170 ⟨CircuitBreakerState.HALF_OPEN, 2, 10, 3, 0⟩
        (Except.ok ())).calls = 0 := by
  have h := half_open_probe_behaviour ⟨2, 100, 3⟩
  refine ⟨(h.1 150 ⟨CircuitBreakerState.OPEN, 2, 10, 0, 0⟩ rfl (by decide)).1,
    h.2.1 150 151 ⟨CircuitBreakerState.HALF_OPEN, 2, 10, 0, 0⟩ rfl rfl (by decide),
    (h.2.2.1 160 ⟨CircuitBreakerState.HALF_OPEN, 2, 10, 0, 0⟩
      ⟨ErrorCode.SERVER_ERROR_5XX, ErrorType.RETRYABLE⟩ rfl rfl (by decide)).2,
    (h.2.2.2 170 ⟨CircuitBreakerState.HALF_OPEN, 2, 10, 3, 0⟩ (Except.ok ()) rfl
      (by decide)).2.1⟩

end FetchNode

namespace FetchNode

/-- Helper: a non-retryable failing call on a CLOSED circuit leaves the
circuit completely unchanged. -/
theorem execOnce_closed_nonretryable (cfg : CircuitBreakerConfig) (now : Nat)
    (c : CircuitStats) (e : FetchError) (he : e.type = ErrorType.NON_RETRYABLE)
    (hs : c.state = CircuitBreakerState.CLOSED) :
    (execOnce cfg now c (Except.error e)).circuit = c := by
  simp [execOnce, breakerExecute, checkAndUpdateState, hs, he]

/-- C7: non-retryable failures never trip the breaker.  Any finite sequence
of `execute` calls whose operations fail with non-retryable errors leaves a
CLOSED circuit exactly as it was (in particular CLOSED), regardless of its
length; and for an arbitrary circuit, a call failing non-retryably performs
no state transition beyond the lazy OPEN → HALF_OPEN admission check — the
failure itself never changes the circuit's state field. -/
theorem non_retryable_failures_never_trip (cfg : CircuitBreakerConfig)
    (times : Nat → Nat) (es : Nat → FetchError)
    (hall : ∀ i, (es i).type = ErrorType.NON_RETRYABLE) :
    (∀ (n i0 : Nat) (c : CircuitStats), c.state = CircuitBreakerState.CLOSED →
      runCalls cfg times (fun i => Except.error (es i)) i0 n c = c) ∧
    (∀ (now : Nat) (c : CircuitStats) (e : FetchError),
      e.type = ErrorType.NON_RETRYABLE →
      (execOnce cfg now c (Except.error e)).circuit.state =
        (checkAndUpdateState cfg now c).state) := by
  constructor
  · intro n
    induction n with
    | zero => intro i0 c _; simp [runCalls]
    | succ k ih =>
        intro i0 c hs
        rw [runCalls, execOnce_closed_nonretryable cfg (times i0) c (es i0) (hall i0) hs]
        exact ih (i0 + 1) c hs
  · intro now c e he
    simp only [execOnce, breakerExecute]
    split
    · rename_i h
      simp [h]
    · split
      · rename_i h
        simp [h.1]
      · rename_i hopen hcap
        by_cases hho : (checkAndUpdateState cfg now c).state = CircuitBreakerState.HALF_OPEN
        · simp [hho, he]
        · simp [hho, he]

/-- Witness for C7 at a concrete input: five 404-style failures on a fresh
circuit leave it untouched, and a lone non-retryable failure on an arbitrary
OPEN-but-cooled circuit performs only the admission transition. -/
theorem non_retryable_failures_never_trip_witness :
    runCalls ⟨2, 100, 3⟩ (fun i => i)
        (fun _ => Except.error ⟨ErrorCode.CLIENT_ERROR_4XX, ErrorType.NON_RETRYABLE⟩) 0 5
        freshCircuit = freshCircuit ∧
    (execOnce ⟨2, 100, 3⟩ 500 ⟨CircuitBreakerState.OPEN, 2, 10, 0, 0⟩
        (Except.error ⟨ErrorCode.CLIENT_ERROR_4XX, ErrorType.NON_RETRYABLE⟩)).circuit.state =
      (checkAndUpdateState ⟨2, 100, 3⟩ 500 ⟨CircuitBreakerState.OPEN, 2, 10, 0, 0⟩).state := by
  have h := non_retryable_failures_never_trip ⟨2, 100, 3⟩ (fun i => i)
    (fun _ => ⟨ErrorCode.CLIENT_ERROR_4XX, ErrorType.NON_RETRYABLE⟩) (fun _ => rfl)
  exact ⟨h.1 5 0 freshCircuit rfl,
    h.2 500 ⟨CircuitBreakerState.OPEN, 2, 10, 0, 0⟩
      ⟨ErrorCode.CLIENT_ERROR_4XX, ErrorType.NON_RETRYABLE⟩ rfl⟩

/-- C8: a successful call on a CLOSED circuit keeps it CLOSED and decays the
failure counter by exactly one, clamped at zero (`max(0, f - 1)`), rather
than resetting it; and the operation is invoked exactly once. -/
theorem closed_success_decays_failures (cfg : CircuitBreakerConfig) (now : Nat)
    (c : CircuitStats) (hs : c.state = CircuitBreakerState.CLOSED) :
    (execOnce cfg now c (Except.ok ())).result = Except.ok () ∧
    (execOnce cfg now c (Except.ok ())).circuit = { c with failures := c.failures - 1 } ∧
    ((execOnce cfg now c (Except.ok ())).circuit.failures : Int) =
      max 0 ((c.failures : Int) - 1) ∧
    (execOnce cfg now c (Except.ok ())).circuit.state = CircuitBreakerState.CLOSED ∧
    (execOnce cfg now c (Except.ok ())).calls = 1 := by
  have hkey : (execOnce cfg now c (Except.ok ())).circuit =
      { c with failures := c.failures - 1 } := by
    simp [execOnce, breakerExecute, checkAndUpdateState, hs]
  refine ⟨?_, hkey, ?_, ?_, ?_⟩
  · simp [execOnce, breakerExecute, checkAndUpdateState, hs]
  · rw [hkey]; simp; omega
  · rw [hkey]; exact hs
  · simp [execOnce, breakerExecute, checkAndUpdateState, hs]

/-- Witness for C8 at concrete inputs: a CLOSED circuit with 3 failures
decays to 2; one with 0 failures stays at 0. -/
theorem closed_success_decays_failures_witness :
    (execOnce ⟨5, 60000, 3⟩ 42 ⟨CircuitBreakerState.CLOSED, 3, 0, 0, 0⟩
        (Except.ok ())).circuit = ⟨CircuitBreakerState.CLOSED, 2, 0, 0, 0⟩ ∧
    (execOnce ⟨5, 60000, 3⟩ 42 freshCircuit (Except.ok ())).circuit.failures = 0 := by
  have h1 := closed_success_decays_failures ⟨5, 60000, 3⟩ 42
    ⟨CircuitBreakerState.CLOSED, 3, 0, 0, 0⟩ rfl
  have h2 := closed_success_decays_failures ⟨5, 60000, 3⟩ 42 freshCircuit rfl
  refine ⟨?_, ?_⟩
  · rw [h1.2.1]; rfl
  · rw [h2.2.1]; rfl

/-- C10: `getState` is observation only — it returns the circuit map
unchanged for every URL — and it performs no lazy transition: an OPEN
circuit whose cooldown has already elapsed is still reported OPEN, even
though the admission check inside `execute` would move that circuit to
HALF_OPEN. -/
theorem getState_pure (cfg : CircuitBreakerConfig) (now : Nat) (m : CircuitMap)
    (domain : String) (c : CircuitStats) (hm : mapGet m domain = some c)
    (hs : c.state = CircuitBreakerState.OPEN)
    (hcd : cfg.cooldownPeriod ≤ now - c.lastFailureTime) :
    (∀ (m' : CircuitMap) (d : String), (getState m' d).2 = m') ∧
    (getState m domain).1 = CircuitBreakerState.OPEN ∧
    (checkAndUpdateState cfg now c).state = CircuitBreakerState.HALF_OPEN := by
  refine ⟨fun m' d => rfl, ?_, ?_⟩
  · simp [getState, hm, hs]
  · simp [checkAndUpdateState, hs, hcd, transitionState]

/-- Witness for C10 at a concrete input: a map holding an OPEN circuit whose
cooldown (100) elapsed long ago, queried at time 500. -/
theorem getState_pure_witness :
    (getState [("a.test", ⟨CircuitBreakerState.OPEN, 2, 10, 0, 0⟩)] "a.test").1 =
      CircuitBreakerState.OPEN ∧
    (getState [("a.test", ⟨CircuitBreakerState.OPEN, 2, 10, 0, 0⟩)] "a.test").2 =
      [("a.test", ⟨CircuitBreakerState.OPEN, 2, 10, 0, 0⟩)] ∧
    (checkAndUpdateState ⟨2, 100, 3⟩ 500 ⟨CircuitBreakerState.OPEN, 2, 10, 0, 0⟩).state =
      CircuitBreakerState.HALF_OPEN := by
  have h := getState_pure ⟨2, 100, 3⟩ 500
    [("a.test", ⟨CircuitBreakerState.OPEN, 2, 10, 0, 0⟩)] "a.test"
    ⟨CircuitBreakerState.OPEN, 2, 10, 0, 0⟩ (by decide) rfl (by decide)
  exact ⟨h.2.1, h.1 _ _, h.2.2⟩

end FetchNode

namespace FetchNode

/-- C1: what `streamFetch` actually wraps, evaluated at the failing input (a
transport that persistently fails with a retryable CONNECTION_ERROR, fresh
circuit, default configurations).  The code's `streamFetch` performs exactly
one transport call and leaves the circuit untouched, because its request is
wrapped in `requestManager.execute` alone; the composition the spec
prescribes (`Scheduler.execute ∘ Breaker.execute ∘ Retry.retry ∘
Transport.perform`) would perform `maxRetries + 1 = 4` transport calls and
record a breaker failure.  The two disagree already on the transport-call
count. -/
theorem streamFetch_scheduler_only :
    (streamFetch (fun _ => some ⟨ErrorCode.CONNECTION_ERROR, ErrorType.RETRYABLE⟩)
        ⟨freshCircuit, 0⟩).2.transportCalls = 1 ∧
    (streamFetch (fun _ => some ⟨ErrorCode.CONNECTION_ERROR, ErrorType.RETRYABLE⟩)
        ⟨freshCircuit, 0⟩).2.breaker = freshCircuit ∧
    (streamFetch (fun _ => some ⟨ErrorCode.CONNECTION_ERROR, ErrorType.RETRYABLE⟩)
        ⟨freshCircuit, 0⟩) =
      schedulerExecute
        (transportPerform (fun _ => some ⟨ErrorCode.CONNECTION_ERROR, ErrorType.RETRYABLE⟩))
        ⟨freshCircuit, 0⟩ ∧
    (specStreamFetch DEFAULT_CIRCUIT_BREAKER_CONFIG DEFAULT_RETRY_CONFIG 0
        (fun _ => some ⟨ErrorCode.CONNECTION_ERROR, ErrorType.RETRYABLE⟩)
        ⟨freshCircuit, 0⟩).2.transportCalls = 4 ∧
    (specStreamFetch DEFAULT_CIRCUIT_BREAKER_CONFIG DEFAULT_RETRY_CONFIG 0
        (fun _ => some ⟨ErrorCode.CONNECTION_ERROR, ErrorType.RETRYABLE⟩)
        ⟨freshCircuit, 0⟩).2.breaker.failures = 1 := by
  refine ⟨rfl, rfl, rfl, ?_, ?_⟩ <;> decide

end FetchNode

namespace FetchNode

/-- Counterexample for C4.  At attempt 0 with the jitter draw
`Math.random() = 0` (so `uniform(-1,1) = -1`), the code sleeps
`max(0, floor(1 - 0.3)) = 0` ms, strictly below the claimed lower bound
`initialDelay·2^0·(1 - jitterFactor) = 0.7`; the retry loop indeed records
exactly that delay.  And for the attempt-count formula: with an operation
succeeding on the first call (`failures_until_success = 0`) the code invokes
it once, while the claimed `min(failures_until_success, maxRetries + 1)`
evaluates to 0. -/
theorem retry_delay_bounds_counterexample :
    ((calculateDelay 0 cfgRefute 0 : Int) : ℚ) <
      cfgRefute.initialDelay * 2 ^ 0 * (1 - cfgRefute.jitterFactor) ∧
    (retryWithBackoff cfgRefute
        (fun _ => some ⟨ErrorCode.CONNECTION_ERROR, ErrorType.RETRYABLE⟩)
        (fun _ => 0)).delays = [0] ∧
    (retryWithBackoff cfgRefute (fun _ => none) (fun _ => 0)).invocations = 1 ∧
    min 0 (cfgRefute.maxRetries + 1) = 0 := by
  have hdelay : calculateDelay 0 cfgRefute 0 = 0 := by
    simp only [calculateDelay, cfgRefute]
    norm_num
  have hdelay' : calculateDelay 0 ⟨1, 1, 10, 3/10⟩ 0 = 0 := hdelay
  refine ⟨?_, ?_, ?_, ?_⟩
  · rw [hdelay]
    simp only [cfgRefute]
    norm_num
  · simp [retryWithBackoff, retryGo, cfgRefute, hdelay']
  · simp [retryWithBackoff, retryGo]
  · simp [cfgRefute]

end FetchNode

namespace FetchNode

/-- Helper: invocation count of the retry loop when the first success is at
call index `K` and every earlier failure is retryable. -/
theorem retryGo_invocations (cfg : RetryConfig) (outcomes : Nat → Option FetchError)
    (rands : Nat → ℚ) (K : Nat) (hK : outcomes K = none)
    (hfail : ∀ j, j < K → ∃ e, outcomes j = some e ∧ e.type = ErrorType.RETRYABLE) :
    ∀ (fuel attempt : Nat), attempt + fuel = cfg.maxRetries + 1 → attempt ≤ K →
      (retryGo cfg outcomes rands attempt fuel).invocations =
        min (K + 1) (cfg.maxRetries + 1) - attempt := by
  intro fuel
  induction fuel with
  | zero =>
      intro attempt h1 h2
      simp only [retryGo]
      omega
  | succ n ih =>
      intro attempt h1 h2
      rcases Nat.lt_or_ge attempt K with hlt | hge
      · obtain ⟨e, he, het⟩ := hfail attempt hlt
        have hnr : ¬ e.type = ErrorType.NON_RETRYABLE := by
          rw [het]; intro hc; cases hc
        by_cases hA : attempt < cfg.maxRetries
        · simp only [retryGo, he, if_neg hnr, if_pos hA]
          rw [ih (attempt + 1) (by omega) (by omega)]
          omega
        · simp only [retryGo, he, if_neg hnr, if_neg hA]
          omega
      · have heq : attempt = K := by omega
        subst heq
        simp only [retryGo, hK]
        omega

/-- C4 (amended): retry-delay bounds and attempt counts as the code computes
them.  With `capped = min(initialDelay·2^i, maxDelay)` and a jitter draw
`u ∈ [0, 1)` (so `uniform(-1,1) = 2u - 1`), the delay slept before retry
attempt `i` lies in `[⌊capped·(1 - jitterFactor)⌋, capped·(1 + jitterFactor)]`
— the claimed interval's lower endpoint must use the capped (and floored)
delay, not the uncapped `initialDelay·2^i`.  And when every failure before
the first success (at call index `K`, so `failures_until_success = K`) is
retryable, the operation is invoked `min(K + 1, maxRetries + 1)` times — one
more than the claimed `min(failures_until_success, maxRetries + 1)` when the
budget is not exhausted. -/
theorem retry_delay_bounds_and_attempts (cfg : RetryConfig)
    (h0 : 0 ≤ cfg.initialDelay) (hm : 0 ≤ cfg.maxDelay)
    (hj0 : 0 ≤ cfg.jitterFactor) (_hj1 : cfg.jitterFactor ≤ 1) :
    (∀ (attempt : Nat) (u : ℚ), 0 ≤ u → u < 1 →
      ⌊min (cfg.initialDelay * 2 ^ attempt) cfg.maxDelay * (1 - cfg.jitterFactor)⌋ ≤
        calculateDelay attempt cfg u ∧
      ((calculateDelay attempt cfg u : Int) : ℚ) ≤
        min (cfg.initialDelay * 2 ^ attempt) cfg.maxDelay * (1 + cfg.jitterFactor)) ∧
    (∀ (outcomes : Nat → Option FetchError) (rands : Nat → ℚ) (K : Nat),
      outcomes K = none →
      (∀ j, j < K → ∃ e, outcomes j = some e ∧ e.type = ErrorType.RETRYABLE) →
      (retryWithBackoff cfg outcomes rands).invocations =
        min (K + 1) (cfg.maxRetries + 1)) := by
  constructor
  · intro attempt u hu0 hu1
    set D := min (cfg.initialDelay * 2 ^ attempt) cfg.maxDelay with hD
    have hDnn : 0 ≤ D := le_min (by positivity) hm
    have hAnn : 0 ≤ D * cfg.jitterFactor := mul_nonneg hDnn hj0
    set j := D * cfg.jitterFactor * (u - 1/2) * 2 with hj
    have hjlo : -(D * cfg.jitterFactor) ≤ j := by
      have hfac : (-1 : ℚ) ≤ (u - 1/2) * 2 := by linarith
      calc -(D * cfg.jitterFactor) = D * cfg.jitterFactor * (-1) := by ring
        _ ≤ D * cfg.jitterFactor * ((u - 1/2) * 2) := by
            exact mul_le_mul_of_nonneg_left hfac hAnn
        _ = j := by rw [hj]; ring
    have hjhi : j ≤ D * cfg.jitterFactor := by
      have hfac : (u - 1/2) * 2 ≤ 1 := by linarith
      calc j = D * cfg.jitterFactor * ((u - 1/2) * 2) := by rw [hj]; ring
        _ ≤ D * cfg.jitterFactor * 1 := mul_le_mul_of_nonneg_left hfac hAnn
        _ = D * cfg.jitterFactor := by ring
    have hcalc : calculateDelay attempt cfg u = max 0 ⌊D + j⌋ := by
      simp only [calculateDelay, hD, hj]
    constructor
    · rw [hcalc]
      have hmono : ⌊D * (1 - cfg.jitterFactor)⌋ ≤ ⌊D + j⌋ := by
        apply Int.floor_le_floor
        have : D * (1 - cfg.jitterFactor) = D - D * cfg.jitterFactor := by ring
        rw [this]
        linarith
      exact le_trans hmono (le_max_right 0 ⌊D + j⌋)
    · rw [hcalc]
      have hub : (0 : ℚ) ≤ D * (1 + cfg.jitterFactor) := by
        apply mul_nonneg hDnn; linarith
      have hfl : ((⌊D + j⌋ : Int) : ℚ) ≤ D * (1 + cfg.jitterFactor) := by
        have h1 : ((⌊D + j⌋ : Int) : ℚ) ≤ D + j := Int.floor_le (D + j)
        have h2 : D + j ≤ D * (1 + cfg.jitterFactor) := by
          have : D * (1 + cfg.jitterFactor) = D + D * cfg.jitterFactor := by ring
          rw [this]
          linarith
        linarith
      rw [Int.cast_max]
      apply max_le
      · exact_mod_cast hub
      · exact hfl
  · intro outcomes rands K hK hfail
    have := retryGo_invocations cfg outcomes rands K hK hfail (cfg.maxRetries + 1) 0
      (by omega) (by omega)
    simpa [retryWithBackoff] using this

/-- Witness for C4's amended theorem at concrete inputs: the default retry
configuration, attempt 0 with jitter draw 0, and an operation succeeding on
its first call under a zero retry budget... the first success at call index
0 yields one invocation. -/
theorem retry_delay_bounds_and_attempts_witness :
    ⌊min ((1000 : ℚ) * 2 ^ 0) 10000 * (1 - 3/10)⌋ ≤
      calculateDelay 0 DEFAULT_RETRY_CONFIG 0 ∧
    (retryWithBackoff DEFAULT_RETRY_CONFIG (fun _ => none) (fun _ => 0)).invocations =
      min 1 4 := by
  have h := retry_delay_bounds_and_attempts DEFAULT_RETRY_CONFIG
    (by norm_num [DEFAULT_RETRY_CONFIG]) (by norm_num [DEFAULT_RETRY_CONFIG])
    (by norm_num [DEFAULT_RETRY_CONFIG]) (by norm_num [DEFAULT_RETRY_CONFIG])
  constructor
  · exact (h.1 0 0 le_rfl (by norm_num)).1
  · have := h.2 (fun _ => none) (fun _ => 0) 0 rfl (fun j hj => absurd hj (Nat.not_lt_zero j))
    simpa [DEFAULT_RETRY_CONFIG] using this

end FetchNode

namespace FetchNode

/-- Helper: the tokenizer's character processing is a homomorphism for
string concatenation (events concatenate, states thread through). -/
theorem tokChars_append (a : Str) : ∀ (b : Str) (st : TokState),
    tokChars st (a ++ b) =
      ((tokChars (tokChars st a).1 b).1,
        (tokChars st a).2 ++ (tokChars (tokChars st a).1 b).2) := by
  induction a with
  | nil => intro b st; simp [tokChars]
  | cons c as ih =>
      intro b st
      rcases hstep : tokStep st c with ⟨st1, evs1⟩
      simp only [List.cons_append, tokChars, hstep]
      simp only [List.append_eq]
      rw [ih b st1]
      rcases h2 : tokChars st1 as with ⟨st2, evs2⟩
      simp [h2, List.append_assoc]

/-- Helper: cleanup with no pending text is the identity. -/
theorem tokCleanup_of_empty (st : TokState) (h : st.textAcc = []) :
    tokCleanup st = (st, []) := by
  simp [tokCleanup, h]

/-- Helper: end-of-input events can be split into an immediate cleanup flush
followed by the end events of the flushed state. -/
theorem tokEndEvents_cleanup (st : TokState) :
    tokEndEvents st = (tokCleanup st).2 ++ tokEndEvents (tokCleanup st).1 := by
  by_cases h : st.mode = TokMode.text ∧ st.textAcc ≠ []
  · simp [tokEndEvents, tokCleanup, h]
  · simp [tokEndEvents, tokCleanup, h]

/-- Helper: a write whose chunk leaves no pending text performs no cleanup
flush. -/
theorem tokWrite_of_safe (st : TokState) (c : Str) (h : (tokChars st c).1.textAcc = []) :
    tokWrite st c = ((tokChars st c).1, (tokChars st c).2) := by
  rcases hc : tokChars st c with ⟨st1, evs1⟩
  have h1 : st1.textAcc = [] := by rw [hc] at h; exact h
  simp [tokWrite, hc, tokCleanup_of_empty st1 h1]

/-- Helper: a single write of a concatenation splits into character
processing of the first part followed by a write of the second. -/
theorem tokWrite_append (st : TokState) (a b : Str) :
    tokWrite st (a ++ b) =
      ((tokWrite (tokChars st a).1 b).1,
        (tokChars st a).2 ++ (tokWrite (tokChars st a).1 b).2) := by
  rcases ha : tokChars st a with ⟨st1, evs1⟩
  simp only [tokWrite, tokChars_append, ha]
  rcases hb : tokChars st1 b with ⟨st2, evs2⟩
  rcases hcl : tokCleanup st2 with ⟨st3, evs3⟩
  simp [ha, hb, hcl, List.append_assoc]

/-- Helper: when no internal chunk boundary splits a pending text run, the
chunked run produces exactly the events of the single-chunk run. -/
theorem allEventsFrom_safe : ∀ (cs : List Str) (st : TokState),
    chunkBoundariesSafe st cs = true →
    allEventsFrom st cs = allEventsFrom st [cs.flatten]
  | [], st, _ => by
      have hend := tokEndEvents_cleanup st
      rcases hcl : tokCleanup st with ⟨st1, evs1⟩
      simp only [allEventsFrom, tokWrite, tokChars, List.flatten_nil, hcl] at hend ⊢
      simpa using hend
  | [c], st, _ => by
      simp [List.flatten]
  | c :: c' :: cs, st, h => by
      have hparts : (tokChars st c).1.textAcc = [] ∧
          chunkBoundariesSafe (tokChars st c).1 (c' :: cs) = true := by
        have := h
        simp only [chunkBoundariesSafe, Bool.and_eq_true, beq_iff_eq] at this
        exact this
      have hw := tokWrite_of_safe st c hparts.1
      have ih := allEventsFrom_safe (c' :: cs) (tokChars st c).1 hparts.2
      calc allEventsFrom st (c :: c' :: cs)
          = (tokWrite st c).2 ++ allEventsFrom (tokWrite st c).1 (c' :: cs) := by
            rcases hv : tokWrite st c with ⟨s1, e1⟩
            simp [allEventsFrom, hv]
        _ = (tokChars st c).2 ++ allEventsFrom (tokChars st c).1 (c' :: cs) := by
            rw [hw]
        _ = (tokChars st c).2 ++ allEventsFrom (tokChars st c).1 [(c' :: cs).flatten] := by
            rw [ih]
        _ = allEventsFrom st [(c :: c' :: cs).flatten] := by
            have hflat : (c :: c' :: cs).flatten = c ++ (c' :: cs).flatten := rfl
            rw [hflat]
            rcases hv : tokWrite (tokChars st c).1 ((c' :: cs).flatten) with ⟨s2, e2⟩
            simp [allEventsFrom, tokWrite_append, hv]

/-- Counterexample for C2.  `["<p>a ", "b</p>"]` is a partition of
`"<p>a b</p>"` into chunks, yet the streamed output differs from the
single-chunk output: the boundary splits the text run `"a b"` right after
its space, the parser delivers `"a "` and `"b"` as separate text events, and
the formatter's trailing-whitespace trim drops the space, producing `"ab"`
instead of `"a b"`. -/
theorem chunk_boundary_invariance_counterexample :
    "<p>a ".data ++ "b</p>".data = "<p>a b</p>".data ∧
    htmlToMarkdownJoined 16384 ["<p>a ".data, "b</p>".data] ≠
      htmlToMarkdownJoined 16384 ["<p>a b</p>".data] := by
  constructor
  · decide
  · decide

/-- C2 (amended): chunk-boundary invariance holds for every partition whose
internal boundaries do not split a text run (the streaming parser's pending
text section is empty at each boundary): the concatenated output then equals
the single-chunk output byte for byte, for every chunk-size threshold. -/
theorem chunk_boundary_invariance_safe (chunkSize : Nat) (chunks : List Str)
    (h : chunkBoundariesSafe tokInit chunks = true) :
    htmlToMarkdownJoined chunkSize chunks =
      htmlToMarkdownJoined chunkSize [chunks.flatten] := by
  unfold htmlToMarkdownJoined
  rw [allEventsFrom_safe chunks tokInit h]

/-- Witness for C2's amended theorem at a concrete input: splitting
`"<p>a b</p>"` at the tag boundary is safe and yields byte-identical
output. -/
theorem chunk_boundary_invariance_safe_witness :
    chunkBoundariesSafe tokInit ["<p>".data, "a b</p>".data] = true ∧
    htmlToMarkdownJoined 16384 ["<p>".data, "a b</p>".data] =
      htmlToMarkdownJoined 16384 [(["<p>".data, "a b</p>".data] : List Str).flatten] :=
  ⟨by decide, chunk_boundary_invariance_safe 16384 ["<p>".data, "a b</p>".data] (by decide)⟩

/-- Counterexample for C5.  The 3-character pieces do partition the scenario
document, but the pipeline's output is not the claimed
`"# Title\n\nHello [world](https://x)"`: the formatter trims the trailing
space of `"Hello "` before the anchor opens, so no space precedes the
link. -/
theorem golden_scenario_counterexample :
    goldenChunks.flatten =
      "<h1>Title</h1><p>Hello <a href=\"https://x\">world</a></p>".data ∧
    (∀ chunk ∈ goldenChunks, chunk.length ≤ 3) ∧
    htmlToMarkdownJoined 16384 goldenChunks ≠
      "# Title\n\nHello [world](https://x)".data := by
  refine ⟨by decide, by decide, by decide⟩

/-- C5 (amended): streaming the scenario document in 3-character pieces
produces exactly `"# Title\n\nHello[world](https://x)"` — the heading,
paragraph break and link of the claimed golden output, but with the space
before the link removed by the formatter's trailing-whitespace trim; the
single-chunk run produces the same bytes. -/
theorem golden_scenario_actual :
    htmlToMarkdownJoined 16384 goldenChunks =
      "# Title\n\nHello[world](https://x)".data ∧
    htmlToMarkdownJoined 16384
        ["<h1>Title</h1><p>Hello <a href=\"https://x\">world</a></p>".data] =
      "# Title\n\nHello[world](https://x)".data := by
  constructor
  · decide
  · decide

end FetchNode
